import Mathlib

/-!
Verification of the libre2 caching subsystem (pattern cache, result cache,
deferred cache, eviction, configuration) against its specification.

The definitions below are a shallow embedding of the C++ sources under
`src/native/wrapper/cache/`.  Time points of `std::chrono::steady_clock` are
modelled as `Int` millisecond counts; `uint64_t` values as `Nat` reduced
modulo `2^64` where wrap-around matters; `size_t` byte counters as `Nat`.
The regex engine and the string-hash primitive are opaque dependencies of
the core (per the specification) and appear as parameters.
-/

namespace LibRE2

/-- Two to the 64, the modulus of `uint64_t` arithmetic. -/
def U64MOD : Nat := 2 ^ 64

--------------------------------------------------------------------------
-- Configuration record (cache_config.h)
--------------------------------------------------------------------------

/-- Model of `libre2::cache::CacheConfig` (cache_config.h).  `size_t`
fields are `Nat` (well-formedness bounds them below `2^64`);
`std::chrono::milliseconds` fields are `Int`. -/
structure CacheConfig where
  cache_enabled : Bool
  pattern_result_cache_enabled : Bool
  pattern_result_cache_target_capacity_bytes : Nat
  pattern_result_cache_string_threshold_bytes : Nat
  pattern_result_cache_ttl_ms : Int
  pattern_result_cache_use_tbb : Bool
  pattern_cache_target_capacity_bytes : Nat
  pattern_cache_ttl_ms : Int
  pattern_cache_use_tbb : Bool
  pattern_cache_lru_batch_size : Nat
  deferred_cache_ttl_ms : Int
  auto_start_eviction_thread : Bool
  eviction_check_interval_ms : Int
  deriving Repr, DecidableEq

/-- The `size_t` fields fit in 64 bits (imposed by the C++ type). -/
def CacheConfig.wf (c : CacheConfig) : Prop :=
  c.pattern_result_cache_target_capacity_bytes < U64MOD ∧
  c.pattern_result_cache_string_threshold_bytes < U64MOD ∧
  c.pattern_cache_target_capacity_bytes < U64MOD ∧
  c.pattern_cache_lru_batch_size < U64MOD

instance (c : CacheConfig) : Decidable c.wf := by
  unfold CacheConfig.wf; infer_instance

/-- `n` is representable in a 32-bit signed `int`. -/
def inInt32 (n : Int) : Prop :=
  -((2 : Int) ^ 31) ≤ n ∧ n < (2 : Int) ^ 31

instance (n : Int) : Decidable (inInt32 n) := by
  unfold inInt32; infer_instance

/-- The millisecond fields fit in the `int` through which `fromJson`
reads them back (`std::chrono::milliseconds` itself holds a 64-bit
count, so this is a genuine restriction, not a type invariant). -/
def CacheConfig.msFieldsFitInt (c : CacheConfig) : Prop :=
  inInt32 c.pattern_result_cache_ttl_ms ∧ inInt32 c.pattern_cache_ttl_ms ∧
  inInt32 c.deferred_cache_ttl_ms ∧ inInt32 c.eviction_check_interval_ms

instance (c : CacheConfig) : Decidable c.msFieldsFitInt := by
  unfold CacheConfig.msFieldsFitInt; infer_instance

/-- Model of `CacheConfig::validate` (cache_config.cpp lines 79-138).
`throw std::invalid_argument` becomes an `Except.error` carrying the
message; the checks appear in source order, the three result-cache checks
guarded by `pattern_result_cache_enabled` as in the source. -/
def CacheConfig.validate (c : CacheConfig) : Except String Unit :=
  -- Global validation - if cache disabled, skip other checks
  if c.cache_enabled = false then .ok ()
  -- Pattern Result Cache validation (if enabled)
  else if c.pattern_result_cache_enabled = true ∧
      c.pattern_result_cache_target_capacity_bytes = 0 then
    .error "pattern_result_cache_target_capacity_bytes must be > 0 when enabled"
  else if c.pattern_result_cache_enabled = true ∧
      c.pattern_result_cache_string_threshold_bytes = 0 then
    .error "pattern_result_cache_string_threshold_bytes must be > 0"
  else if c.pattern_result_cache_enabled = true ∧
      c.pattern_result_cache_ttl_ms ≤ 0 then
    .error "pattern_result_cache_ttl_ms must be > 0 when enabled"
  -- Pattern Compilation Cache validation
  else if c.pattern_cache_target_capacity_bytes = 0 then
    .error "pattern_cache_target_capacity_bytes must be > 0"
  else if c.pattern_cache_ttl_ms ≤ 0 then
    .error "pattern_cache_ttl_ms must be > 0"
  else if c.pattern_cache_lru_batch_size = 0 then
    .error "pattern_cache_lru_batch_size must be > 0"
  -- Deferred Cache validation
  else if c.deferred_cache_ttl_ms ≤ 0 then
    .error "deferred_cache_ttl_ms must be > 0"
  -- Deferred TTL should be > Pattern TTL (leak protection)
  else if c.deferred_cache_ttl_ms ≤ c.pattern_cache_ttl_ms then
    .error "deferred_cache_ttl_ms must be > pattern_cache_ttl_ms (leak protection)"
  -- Eviction thread validation
  else if c.eviction_check_interval_ms ≤ 0 then
    .error "eviction_check_interval_ms must be > 0"
  else .ok ()

--------------------------------------------------------------------------
-- JSON model (abstract object level; JSON syntax is out of scope)
--------------------------------------------------------------------------

/-- A JSON value as far as the configuration code consumes it: booleans
and (arbitrary-precision) integers. -/
inductive JsonVal where
  | jbool : Bool → JsonVal
  | jnum : Int → JsonVal
  deriving Repr, DecidableEq

/-- A JSON object: association of field names to values.  Unknown fields
are ignored by the reader, matching nlohmann `j.value`. -/
def JsonObj : Type := List (String × JsonVal)

/-- First binding of a key in the object. -/
def jlookup (j : JsonObj) (k : String) : Option JsonVal :=
  match j with
  | [] => none
  | (k2, v) :: rest => if k2 = k then some v else jlookup rest k

/-- Model of `j.value(key, bool_default)`: default when the key is
absent, the stored boolean when present, a type error otherwise. -/
def jvalueBool (j : JsonObj) (k : String) (d : Bool) : Except String Bool :=
  match jlookup j k with
  | none => .ok d
  | some (.jbool b) => .ok b
  | some (.jnum _) => .error "Invalid type in cache configuration JSON"

/-- Model of `j.value(key, size_t_default)`: a stored integer is
converted to `size_t` by the two's-complement cast of `get<size_t>`. -/
def jvalueNat (j : JsonObj) (k : String) (d : Nat) : Except String Nat :=
  match jlookup j k with
  | none => .ok d
  | some (.jnum n) => .ok ((n % (U64MOD : Int)).toNat)
  | some (.jbool _) => .error "Invalid type in cache configuration JSON"

/-- The unchecked `static_cast` from the stored 64-bit JSON integer to
`int`: two's-complement truncation modulo `2^32`. -/
def toInt32 (n : Int) : Int :=
  let r := n % ((2 : Int) ^ 32)
  if r < (2 : Int) ^ 31 then r else r - (2 : Int) ^ 32

/-- Model of `j.value(key, int_default)` feeding a
`std::chrono::milliseconds` field: the default is `int`-typed
(cache_config.cpp lines 43, 50, 56, 61), so nlohmann reads the stored
integer through `get<int>`, truncating it to 32 bits. -/
def jvalueInt (j : JsonObj) (k : String) (d : Int) : Except String Int :=
  match jlookup j k with
  | none => .ok d
  | some (.jnum n) => .ok (toInt32 n)
  | some (.jbool _) => .error "Invalid type in cache configuration JSON"

/-- The field-reading half of `CacheConfig::fromJson` (cache_config.cpp
lines 33-61): every recognised field is read with its default. -/
def readConfig (j : JsonObj) : Except String CacheConfig := do
  let cache_enabled ← jvalueBool j "cache_enabled" true
  let prc_enabled ← jvalueBool j "pattern_result_cache_enabled" true
  let prc_capacity ← jvalueNat j "pattern_result_cache_target_capacity_bytes" (100 * 1024 * 1024)
  let prc_threshold ← jvalueNat j "pattern_result_cache_string_threshold_bytes" (10 * 1024)
  let prc_ttl ← jvalueInt j "pattern_result_cache_ttl_ms" 300000
  let prc_use_tbb ← jvalueBool j "pattern_result_cache_use_tbb" false
  let pc_capacity ← jvalueNat j "pattern_cache_target_capacity_bytes" (100 * 1024 * 1024)
  let pc_ttl ← jvalueInt j "pattern_cache_ttl_ms" 300000
  let pc_use_tbb ← jvalueBool j "pattern_cache_use_tbb" false
  let pc_batch ← jvalueNat j "pattern_cache_lru_batch_size" 100
  let dc_ttl ← jvalueInt j "deferred_cache_ttl_ms" 600000
  let auto_start ← jvalueBool j "auto_start_eviction_thread" true
  let interval ← jvalueInt j "eviction_check_interval_ms" 100
  let config : CacheConfig :=
    { cache_enabled := cache_enabled
      pattern_result_cache_enabled := prc_enabled
      pattern_result_cache_target_capacity_bytes := prc_capacity
      pattern_result_cache_string_threshold_bytes := prc_threshold
      pattern_result_cache_ttl_ms := prc_ttl
      pattern_result_cache_use_tbb := prc_use_tbb
      pattern_cache_target_capacity_bytes := pc_capacity
      pattern_cache_ttl_ms := pc_ttl
      pattern_cache_use_tbb := pc_use_tbb
      pattern_cache_lru_batch_size := pc_batch
      deferred_cache_ttl_ms := dc_ttl
      auto_start_eviction_thread := auto_start
      eviction_check_interval_ms := interval }
  return config

/-- Model of `CacheConfig::fromJson` (cache_config.cpp lines 27-77) from
the parsed-object level (JSON surface syntax is outside the core): read
all fields with defaults, then validate, then return the record. -/
def CacheConfig.fromJson (j : JsonObj) : Except String CacheConfig :=
  match readConfig j with
  | .error e => .error e
  | .ok config =>
      match config.validate with
      | .error e => .error e
      | .ok _ => .ok config

/-- Model of `CacheConfig::toJson` (cache_config.cpp lines 140-167) at the
object level: the serialised document binds exactly these fields. -/
def CacheConfig.toJson (c : CacheConfig) : JsonObj :=
  [ ("cache_enabled", .jbool c.cache_enabled),
    ("pattern_result_cache_enabled", .jbool c.pattern_result_cache_enabled),
    ("pattern_result_cache_target_capacity_bytes",
      .jnum (c.pattern_result_cache_target_capacity_bytes : Int)),
    ("pattern_result_cache_string_threshold_bytes",
      .jnum (c.pattern_result_cache_string_threshold_bytes : Int)),
    ("pattern_result_cache_ttl_ms", .jnum c.pattern_result_cache_ttl_ms),
    ("pattern_result_cache_use_tbb", .jbool c.pattern_result_cache_use_tbb),
    ("pattern_cache_target_capacity_bytes",
      .jnum (c.pattern_cache_target_capacity_bytes : Int)),
    ("pattern_cache_ttl_ms", .jnum c.pattern_cache_ttl_ms),
    ("pattern_cache_use_tbb", .jbool c.pattern_cache_use_tbb),
    ("pattern_cache_lru_batch_size", .jnum (c.pattern_cache_lru_batch_size : Int)),
    ("deferred_cache_ttl_ms", .jnum c.deferred_cache_ttl_ms),
    ("auto_start_eviction_thread", .jbool c.auto_start_eviction_thread),
    ("eviction_check_interval_ms", .jnum c.eviction_check_interval_ms) ]

--------------------------------------------------------------------------
-- Association-list model of unordered_map
--------------------------------------------------------------------------

/-- `unordered_map::find`: first value bound to `k`. -/
def afind {α : Type} (k : Nat) : List (Nat × α) → Option α
  | [] => none
  | (k2, v) :: rest => if k2 = k then some v else afind k rest

/-- In-place mutation through a found iterator: replace the value at `k`. -/
def aupdate {α : Type} (k : Nat) (f : α → α) : List (Nat × α) → List (Nat × α)
  | [] => []
  | (k2, v) :: rest =>
      if k2 = k then (k2, f v) :: rest else (k2, v) :: aupdate k f rest

/-- `unordered_map::erase` by key. -/
def aerase {α : Type} (k : Nat) : List (Nat × α) → List (Nat × α)
  | [] => []
  | (k2, v) :: rest => if k2 = k then rest else (k2, v) :: aerase k rest

--------------------------------------------------------------------------
-- Compiled pattern, pattern cache state, metrics (pattern_cache.h / cache_metrics.h)
--------------------------------------------------------------------------

/-- Model of `RE2Pattern` (deferred_cache.h): the compiled engine object is
opaque; what the cache core reads is the pattern text, the atomic refcount
and the approximate size. -/
structure RE2PatternModel where
  pattern_string : String
  refcount : Nat
  approx_size_bytes : Nat
  deriving Repr, DecidableEq

/-- Model of `PatternCache::PatternCacheEntry`. -/
structure PatternCacheEntry where
  pattern : RE2PatternModel
  last_access : Int
  deriving Repr, DecidableEq

/-- The std-map pattern cache state: entries plus `std_total_size_bytes_`. -/
structure PatternCacheState where
  entries : List (Nat × PatternCacheEntry)
  total_size_bytes : Nat
  deriving Repr, DecidableEq

/-- The counters of `PatternCacheMetrics` touched by the modelled paths. -/
structure PatternCacheMetrics where
  hits : Nat := 0
  misses : Nat := 0
  compilation_errors : Nat := 0
  ttl_evictions : Nat := 0
  lru_evictions : Nat := 0
  lru_evictions_bytes_freed : Nat := 0
  ttl_entries_moved_to_deferred : Nat := 0
  total_evictions : Nat := 0
  total_bytes_freed : Nat := 0
  deriving Repr, DecidableEq

/-- Model of `DeferredCache::DeferredEntry`. -/
structure DeferredEntry where
  pattern : RE2PatternModel
  entered_deferred : Int
  approx_size_bytes : Nat
  deriving Repr, DecidableEq

/-- Deferred cache state: entries plus `total_size_bytes_`. -/
structure DeferredCacheState where
  entries : List (Nat × DeferredEntry)
  total_size_bytes : Nat
  deriving Repr, DecidableEq

/-- The counters of `DeferredCacheMetrics` touched by the modelled paths. -/
structure DeferredCacheMetrics where
  immediate_evictions : Nat := 0
  immediate_evictions_bytes_freed : Nat := 0
  forced_evictions : Nat := 0
  forced_evictions_bytes_freed : Nat := 0
  total_evictions : Nat := 0
  total_bytes_freed : Nat := 0
  total_entries_added : Nat := 0
  deriving Repr, DecidableEq

/-- Model of `DeferredCache::add` (deferred_cache.cpp lines 35-53): insert
with a fresh entry timestamp; a duplicate fingerprint is a no-op. -/
def deferredAdd (key : Nat) (p : RE2PatternModel) (now : Int)
    (dc : DeferredCacheState) (m : DeferredCacheMetrics) :
    DeferredCacheState × DeferredCacheMetrics :=
  match afind key dc.entries with
  | some _ => (dc, m)
  | none =>
      ({ entries := dc.entries ++ [(key, ⟨p, now, p.approx_size_bytes⟩)],
         total_size_bytes := dc.total_size_bytes + p.approx_size_bytes },
       { m with total_entries_added := m.total_entries_added + 1 })

--------------------------------------------------------------------------
-- PatternCache::getOrCompileStd (pattern_cache.cpp lines 165-224)
--------------------------------------------------------------------------

/-- Model of `PatternCache::getOrCompileStd`.  The regex engine is an
external dependency: `compile` is the outcome `compilePattern` would
produce for this pattern text and options (`Except.error msg` when
`RE2::ok()` is false, carrying `regex->error()`).  Returns the pattern
reference (or `none` on failure), the `error_msg` out-parameter, and the
updated cache state and metrics. -/
def getOrCompileStd (key : Nat) (compile : Except String RE2PatternModel)
    (st : PatternCacheState) (m : PatternCacheMetrics) (now : Int) :
    Option RE2PatternModel × String × PatternCacheState × PatternCacheMetrics :=
  match afind key st.entries with
  | some e =>
      -- CACHE HIT: increment refcount while the lock is held, bump last_access
      let p := { e.pattern with refcount := e.pattern.refcount + 1 }
      (some p, "",
       { st with entries :=
           aupdate key (fun _ => { pattern := p, last_access := now }) st.entries },
       { m with hits := m.hits + 1 })
  | none =>
      -- CACHE MISS: count it, compile with no lock held
      let m1 := { m with misses := m.misses + 1 }
      match compile with
      | .error msg =>
          (none, msg, st,
           { m1 with compilation_errors := m1.compilation_errors + 1 })
      | .ok p =>
          -- Exclusive lock: double-check for a concurrent insert
          match afind key st.entries with
          | some e =>
              let p2 := { e.pattern with refcount := e.pattern.refcount + 1 }
              (some p2, "",
               { st with entries :=
                   aupdate key (fun _ => { pattern := p2, last_access := now }) st.entries },
               m1)
          | none =>
              let p1 := { p with refcount := 1 }
              (some p1, "",
               { entries := st.entries ++ [(key, ⟨p1, now⟩)],
                 total_size_bytes := st.total_size_bytes + p1.approx_size_bytes },
               m1)

--------------------------------------------------------------------------
-- PatternCache::evictStd (pattern_cache.cpp lines 228-317)
--------------------------------------------------------------------------

/-- The TTL for-loop of `evictStd` (lines 237-270): erase expired entries,
deleting refcount-0 ones and moving in-use ones to the deferred cache.
Returns (kept entries, new byte total, deferred state, metrics, count). -/
def patternTtlPass (ttl : Int) (now : Int) :
    List (Nat × PatternCacheEntry) → Nat → DeferredCacheState →
    PatternCacheMetrics →
    List (Nat × PatternCacheEntry) × Nat × DeferredCacheState ×
      PatternCacheMetrics × Nat
  | [], total, dc, m => ([], total, dc, m, 0)
  | (k, e) :: rest, total, dc, m =>
      if now - e.last_access > ttl then
        let freed := e.pattern.approx_size_bytes
        if e.pattern.refcount = 0 then
          let m2 := { m with
            ttl_evictions := m.ttl_evictions + 1,
            total_evictions := m.total_evictions + 1,
            total_bytes_freed := m.total_bytes_freed + freed }
          let (kept, t2, dc2, m3, ev) := patternTtlPass ttl now rest (total - freed) dc m2
          (kept, t2, dc2, m3, ev + 1)
        else
          -- deferred_cache.add is called with a fresh local metrics object,
          -- so its counter updates are discarded (source line 255)
          let (dc1, _) := deferredAdd k e.pattern now dc {}
          let m2 := { m with
            ttl_entries_moved_to_deferred := m.ttl_entries_moved_to_deferred + 1,
            total_evictions := m.total_evictions + 1,
            total_bytes_freed := m.total_bytes_freed + freed }
          let (kept, t2, dc2, m3, ev) := patternTtlPass ttl now rest (total - freed) dc1 m2
          (kept, t2, dc2, m3, ev + 1)
      else
        let (kept, t2, dc2, m2, ev) := patternTtlPass ttl now rest total dc m
        ((k, e) :: kept, t2, dc2, m2, ev)

/-- Ordering used by the LRU partial sort: older last-access first. -/
def lruOlder (a b : Nat × PatternCacheEntry) : Prop :=
  a.2.last_access ≤ b.2.last_access

instance : DecidableRel lruOlder := fun _ _ => Int.decLe _ _

instance : IsTotal (Nat × PatternCacheEntry) lruOlder :=
  ⟨fun a b => Int.le_total a.2.last_access b.2.last_access⟩

instance : IsTrans (Nat × PatternCacheEntry) lruOlder :=
  ⟨fun _ _ _ => Int.le_trans⟩

/-- Step 3 of one LRU batch iteration (lines 292-311): evict the selected
keys in order, stopping as soon as bytes drop to the target capacity.
Returns (state, metrics, evicted-so-far, reached_capacity). -/
def patternLruEvictKeys (cap : Nat) :
    List Nat → PatternCacheState → PatternCacheMetrics → Nat →
    PatternCacheState × PatternCacheMetrics × Nat × Bool
  | [], st, m, ev => (st, m, ev, false)
  | k :: rest, st, m, ev =>
      match afind k st.entries with
      | none => patternLruEvictKeys cap rest st m ev
      | some e =>
          let freed := e.pattern.approx_size_bytes
          let st2 : PatternCacheState :=
            { entries := aerase k st.entries,
              total_size_bytes := st.total_size_bytes - freed }
          let m2 := { m with
            lru_evictions := m.lru_evictions + 1,
            lru_evictions_bytes_freed := m.lru_evictions_bytes_freed + freed,
            total_evictions := m.total_evictions + 1,
            total_bytes_freed := m.total_bytes_freed + freed }
          if st2.total_size_bytes ≤ cap then (st2, m2, ev + 1, true)
          else patternLruEvictKeys cap rest st2 m2 (ev + 1)

/-- Step 1 of one LRU batch iteration (lines 275-280): the entries whose
refcount is 0. -/
def patternLruCandidates (st : PatternCacheState) : List (Nat × PatternCacheEntry) :=
  st.entries.filter (fun kv => kv.2.pattern.refcount = 0)

/-- Step 2 of one LRU batch iteration (lines 284-289): the candidates in
last-access order.  `std::partial_sort` arranges the first `batch_size`
positions to be the smallest in order; a full stable sort followed by
`take` realises the same selection. -/
def patternLruSorted (st : PatternCacheState) : List (Nat × PatternCacheEntry) :=
  (patternLruCandidates st).insertionSort lruOlder

/-- The keys the batch iteration will evict (in eviction order):
the `min batch_size candidates.length` oldest candidates. -/
def patternLruSelect (batchSize : Nat) (st : PatternCacheState) : List Nat :=
  ((patternLruSorted st).take (min batchSize (patternLruCandidates st).length)).map Prod.fst

/-- One iteration of the LRU while-loop of `evictStd` (lines 273-314).
Returns `none` when the loop body would break before evicting (empty
candidate list or loop guard false), otherwise the state after the batch
plus whether the capacity target was reached (outer break). -/
def patternLruStep (cfg : CacheConfig) (st : PatternCacheState)
    (m : PatternCacheMetrics) (ev : Nat) :
    Option (PatternCacheState × PatternCacheMetrics × Nat × Bool) :=
  if st.total_size_bytes > cfg.pattern_cache_target_capacity_bytes ∧
      st.entries ≠ [] then
    if patternLruCandidates st = [] then none
    else
      some (patternLruEvictKeys cfg.pattern_cache_target_capacity_bytes
        (patternLruSelect cfg.pattern_cache_lru_batch_size st) st m ev)
  else none

/-- The LRU while-loop, fuelled (each productive iteration erases at least
one entry, so `entries.length + 1` fuel is exact when batch size > 0). -/
def patternLruLoop (cfg : CacheConfig) :
    Nat → PatternCacheState → PatternCacheMetrics → Nat →
    PatternCacheState × PatternCacheMetrics × Nat
  | 0, st, m, ev => (st, m, ev)
  | fuel + 1, st, m, ev =>
      match patternLruStep cfg st m ev with
      | none => (st, m, ev)
      | some (st2, m2, ev2, reached) =>
          if reached then (st2, m2, ev2)
          else patternLruLoop cfg fuel st2 m2 ev2

/-- Model of `PatternCache::evictStd`: TTL pass followed by the LRU loop.
Returns (pattern cache state, deferred cache state, metrics, evicted). -/
def patternEvictStd (cfg : CacheConfig) (st : PatternCacheState)
    (dc : DeferredCacheState) (m : PatternCacheMetrics) (now : Int) :
    PatternCacheState × DeferredCacheState × PatternCacheMetrics × Nat :=
  let (kept, total, dc2, m2, ev) :=
    patternTtlPass cfg.pattern_cache_ttl_ms now st.entries st.total_size_bytes dc m
  let st1 : PatternCacheState := { entries := kept, total_size_bytes := total }
  let (st2, m3, ev2) := patternLruLoop cfg (st1.entries.length + 1) st1 m2 ev
  (st2, dc2, m3, ev2)

--------------------------------------------------------------------------
-- DeferredCache::evict (deferred_cache.cpp lines 55-111)
--------------------------------------------------------------------------

/-- A leak warning written to the diagnostic channel by a forced eviction:
the observed refcount and the age of the entry. -/
structure LeakWarning where
  refcount : Nat
  age_ms : Int
  deriving Repr, DecidableEq

/-- The per-entry classification the deferred eviction loop applies. -/
inductive DeferredAction where
  | immediate
  | forced
  | retain
  deriving Repr, DecidableEq

/-- Classification of one deferred entry at time `now` (the structure of
the loop body, lines 63-107). -/
def classifyDeferred (ttl : Int) (now : Int) (e : DeferredEntry) : DeferredAction :=
  if e.pattern.refcount = 0 then .immediate
  else if now - e.entered_deferred > ttl then .forced
  else .retain

/-- Model of the loop of `DeferredCache::evict`: returns (kept entries,
byte total, metrics, emitted warnings, evicted count). -/
def deferredEvictPass (ttl : Int) (now : Int) :
    List (Nat × DeferredEntry) → Nat → DeferredCacheMetrics →
    List (Nat × DeferredEntry) × Nat × DeferredCacheMetrics ×
      List LeakWarning × Nat
  | [], total, m => ([], total, m, [], 0)
  | (k, e) :: rest, total, m =>
      if e.pattern.refcount = 0 then
        let freed := e.approx_size_bytes
        let m2 := { m with
          immediate_evictions := m.immediate_evictions + 1,
          immediate_evictions_bytes_freed := m.immediate_evictions_bytes_freed + freed,
          total_evictions := m.total_evictions + 1,
          total_bytes_freed := m.total_bytes_freed + freed }
        let (kept, t2, m3, ws, ev) := deferredEvictPass ttl now rest (total - freed) m2
        (kept, t2, m3, ws, ev + 1)
      else if now - e.entered_deferred > ttl then
        let freed := e.approx_size_bytes
        let m2 := { m with
          forced_evictions := m.forced_evictions + 1,
          forced_evictions_bytes_freed := m.forced_evictions_bytes_freed + freed,
          total_evictions := m.total_evictions + 1,
          total_bytes_freed := m.total_bytes_freed + freed }
        let (kept, t2, m3, ws, ev) := deferredEvictPass ttl now rest (total - freed) m2
        (kept, t2, m3,
         ⟨e.pattern.refcount, now - e.entered_deferred⟩ :: ws, ev + 1)
      else
        let (kept, t2, m3, ws, ev) := deferredEvictPass ttl now rest total m
        ((k, e) :: kept, t2, m3, ws, ev)

/-- Model of `DeferredCache::evict`. -/
def deferredEvict (cfg : CacheConfig) (dc : DeferredCacheState)
    (m : DeferredCacheMetrics) (now : Int) :
    DeferredCacheState × DeferredCacheMetrics × List LeakWarning × Nat :=
  let (kept, total, m2, ws, ev) :=
    deferredEvictPass cfg.deferred_cache_ttl_ms now dc.entries dc.total_size_bytes m
  ({ entries := kept, total_size_bytes := total }, m2, ws, ev)

--------------------------------------------------------------------------
-- Result cache (result_cache.h / result_cache.cpp)
--------------------------------------------------------------------------

/-- `ResultCache::RESULT_CACHE_ENTRY_SIZE` (result_cache.h line 116). -/
def RESULT_CACHE_ENTRY_SIZE : Nat := 64

/-- Model of `ResultCache::ResultCacheEntry`; the constructor fixes
`approx_size_bytes` to the constant (the input string is not stored). -/
structure ResultCacheEntry where
  match_result : Bool
  last_access : Int
  approx_size_bytes : Nat
  deriving Repr, DecidableEq

/-- Result cache state: entries plus `std_total_size_bytes_`. -/
structure ResultCacheState where
  entries : List (Nat × ResultCacheEntry)
  total_size_bytes : Nat
  deriving Repr, DecidableEq

/-- The counters of `PatternResultCacheMetrics` touched by the modelled
paths. -/
structure ResultCacheMetrics where
  hits : Nat := 0
  misses : Nat := 0
  get_errors : Nat := 0
  put_errors : Nat := 0
  result_flips : Nat := 0
  updates : Nat := 0
  inserts : Nat := 0
  ttl_evictions : Nat := 0
  lru_evictions : Nat := 0
  lru_evictions_bytes_freed : Nat := 0
  total_evictions : Nat := 0
  total_bytes_freed : Nat := 0
  deriving Repr, DecidableEq

/-- Model of `ResultCache::makeKey` (result_cache.cpp lines 443-449).
`hashString` is the opaque 64-bit string-hash primitive (a parameter of
the core per the specification); `uint64_t` arithmetic is `% 2^64`. -/
def resultMakeKey (hashString : String → Nat) (pattern_hash : Nat)
    (input : String) : Nat :=
  let ph := pattern_hash % U64MOD
  let ih := hashString input % U64MOD
  Nat.xor ph ((ih + 0x9e3779b97f4a7c15 + ph * 2 ^ 6 + ph / 2 ^ 2) % U64MOD)

/-- Model of `ResultCache::getStd` (lines 143-167): hit updates
last-access and returns the stored result; miss returns none. -/
def resultGetStd (key : Nat) (st : ResultCacheState) (m : ResultCacheMetrics)
    (now : Int) : Option Bool × ResultCacheState × ResultCacheMetrics :=
  match afind key st.entries with
  | some e =>
      (some e.match_result,
       { st with entries :=
           aupdate key (fun e2 => { e2 with last_access := now }) st.entries },
       { m with hits := m.hits + 1 })
  | none => (none, st, { m with misses := m.misses + 1 })

/-- Model of `ResultCache::get` (lines 47-64): disabled cache answers
`none` without touching state. -/
def resultGet (cfg : CacheConfig) (hashString : String → Nat)
    (pattern_hash : Nat) (input : String) (st : ResultCacheState)
    (m : ResultCacheMetrics) (now : Int) :
    Option Bool × ResultCacheState × ResultCacheMetrics :=
  if !cfg.pattern_result_cache_enabled then (none, st, m)
  else resultGetStd (resultMakeKey hashString pattern_hash input) st m now

/-- Model of `ResultCache::putStd` (lines 169-205): update in place when
the key exists (tracking flips), otherwise insert a fixed-size entry. -/
def resultPutStd (key : Nat) (match_result : Bool) (st : ResultCacheState)
    (m : ResultCacheMetrics) (now : Int) :
    ResultCacheState × ResultCacheMetrics :=
  match afind key st.entries with
  | some e =>
      let m1 := if e.match_result ≠ match_result then
        { m with result_flips := m.result_flips + 1 } else m
      ({ st with entries :=
           (aupdate key
             (fun e2 => { e2 with match_result := match_result, last_access := now })
             st.entries) },
       { m1 with updates := m1.updates + 1 })
  | none =>
      ({ entries := st.entries ++
           [(key, ⟨match_result, now, RESULT_CACHE_ENTRY_SIZE⟩)],
         total_size_bytes := st.total_size_bytes + RESULT_CACHE_ENTRY_SIZE },
       { m with inserts := m.inserts + 1 })

/-- Model of `ResultCache::put` (lines 66-89): no-op when the cache is
disabled or the input's byte size (`input_string.size()`) exceeds the
string threshold. -/
def resultPut (cfg : CacheConfig) (hashString : String → Nat)
    (pattern_hash : Nat) (input : String) (match_result : Bool)
    (st : ResultCacheState) (m : ResultCacheMetrics) (now : Int) :
    ResultCacheState × ResultCacheMetrics :=
  if !cfg.pattern_result_cache_enabled then (st, m)
  else if input.utf8ByteSize > cfg.pattern_result_cache_string_threshold_bytes then (st, m)
  else resultPutStd (resultMakeKey hashString pattern_hash input) match_result st m now

/-- The TTL for-loop of `ResultCache::evictStd` (lines 216-232). -/
def resultTtlPass (ttl : Int) (now : Int) :
    List (Nat × ResultCacheEntry) → Nat → ResultCacheMetrics →
    List (Nat × ResultCacheEntry) × Nat × ResultCacheMetrics × Nat
  | [], total, m => ([], total, m, 0)
  | (k, e) :: rest, total, m =>
      if now - e.last_access > ttl then
        let freed := e.approx_size_bytes
        let m2 := { m with
          ttl_evictions := m.ttl_evictions + 1,
          total_evictions := m.total_evictions + 1,
          total_bytes_freed := m.total_bytes_freed + freed }
        let (kept, t2, m3, ev) := resultTtlPass ttl now rest (total - freed) m2
        (kept, t2, m3, ev + 1)
      else
        let (kept, t2, m3, ev) := resultTtlPass ttl now rest total m
        ((k, e) :: kept, t2, m3, ev)

/-- LRU comparator of the result cache batch sort. -/
def rcOlder (a b : Nat × ResultCacheEntry) : Prop :=
  a.2.last_access ≤ b.2.last_access

instance : DecidableRel rcOlder := fun _ _ => Int.decLe _ _

instance : IsTotal (Nat × ResultCacheEntry) rcOlder :=
  ⟨fun a b => Int.le_total a.2.last_access b.2.last_access⟩

instance : IsTrans (Nat × ResultCacheEntry) rcOlder :=
  ⟨fun _ _ _ => Int.le_trans⟩

/-- Batch selection of `evictStd` (lines 239-256): all keys, partial
sorted by last-access, first `min 100 n`. -/
def resultLruSelect (st : ResultCacheState) : List Nat :=
  (((st.entries.insertionSort rcOlder)).take (min 100 st.entries.length)).map Prod.fst

/-- Batch eviction of `evictStd` (lines 259-281): fresh lookups, early
stop at capacity. -/
def resultLruEvictKeys (cap : Nat) :
    List Nat → ResultCacheState → ResultCacheMetrics → Nat →
    ResultCacheState × ResultCacheMetrics × Nat × Bool
  | [], st, m, ev => (st, m, ev, false)
  | k :: rest, st, m, ev =>
      match afind k st.entries with
      | none => resultLruEvictKeys cap rest st m ev
      | some e =>
          let freed := e.approx_size_bytes
          let st2 : ResultCacheState :=
            { entries := aerase k st.entries,
              total_size_bytes := st.total_size_bytes - freed }
          let m2 := { m with
            lru_evictions := m.lru_evictions + 1,
            lru_evictions_bytes_freed := m.lru_evictions_bytes_freed + freed,
            total_evictions := m.total_evictions + 1,
            total_bytes_freed := m.total_bytes_freed + freed }
          if st2.total_size_bytes ≤ cap then (st2, m2, ev + 1, true)
          else resultLruEvictKeys cap rest st2 m2 (ev + 1)

/-- One iteration of the LRU while-loop of `ResultCache::evictStd`. -/
def resultLruStep (cfg : CacheConfig) (st : ResultCacheState)
    (m : ResultCacheMetrics) (ev : Nat) :
    Option (ResultCacheState × ResultCacheMetrics × Nat × Bool) :=
  if st.total_size_bytes > cfg.pattern_result_cache_target_capacity_bytes ∧
      st.entries ≠ [] then
    let keys := resultLruSelect st
    if keys = [] then none
    else some (resultLruEvictKeys cfg.pattern_result_cache_target_capacity_bytes keys st m ev)
  else none

/-- The LRU while-loop of `ResultCache::evictStd`, fuelled. -/
def resultLruLoop (cfg : CacheConfig) :
    Nat → ResultCacheState → ResultCacheMetrics → Nat →
    ResultCacheState × ResultCacheMetrics × Nat
  | 0, st, m, ev => (st, m, ev)
  | fuel + 1, st, m, ev =>
      match resultLruStep cfg st m ev with
      | none => (st, m, ev)
      | some (st2, m2, ev2, reached) =>
          if reached then (st2, m2, ev2)
          else resultLruLoop cfg fuel st2 m2 ev2

/-- Model of `ResultCache::evictStd` (lines 207-287). -/
def resultEvictStd (cfg : CacheConfig) (st : ResultCacheState)
    (m : ResultCacheMetrics) (now : Int) :
    ResultCacheState × ResultCacheMetrics × Nat :=
  let (kept, total, m2, ev) :=
    resultTtlPass cfg.pattern_result_cache_ttl_ms now st.entries st.total_size_bytes m
  let st1 : ResultCacheState := { entries := kept, total_size_bytes := total }
  resultLruLoop cfg (st1.entries.length + 1) st1 m2 ev

--------------------------------------------------------------------------
-- Manager (cache_manager.cpp) and eviction thread running flag
--------------------------------------------------------------------------

/-- Manager-level state: the three caches plus the eviction thread's
`running_` flag (eviction_thread.cpp lines 42-73: `start` and `stop` are
idempotent toggles of `running_`). -/
structure CacheManagerState where
  pattern_cache : PatternCacheState
  result_cache : ResultCacheState
  deferred_cache : DeferredCacheState
  eviction_running : Bool
  deriving Repr, DecidableEq

/-- Model of `PatternCache::clear` (pattern_cache.cpp lines 111-133, std
branch): move entries whose refcount is positive to the deferred cache
(again through a discarded local metrics object), then drop everything and
zero the byte counter.  Returns the updated deferred cache state. -/
def patternCacheClearInto (now : Int) :
    List (Nat × PatternCacheEntry) → DeferredCacheState → DeferredCacheState
  | [], dc => dc
  | (k, e) :: rest, dc =>
      if e.pattern.refcount > 0 then
        patternCacheClearInto now rest (deferredAdd k e.pattern now dc {}).1
      else
        patternCacheClearInto now rest dc

/-- Model of `CacheManager::clearAllCaches` (cache_manager.cpp lines
82-98): stop the eviction thread, clear the pattern cache into the
deferred cache, clear the result cache, clear the deferred cache, then
start the eviction thread again when `config_.auto_start_eviction_thread`
is set. -/
def clearAllCaches (cfg : CacheConfig) (s : CacheManagerState) (now : Int) :
    CacheManagerState :=
  -- stopEvictionThread()
  let s1 := { s with eviction_running := false }
  -- pattern_cache_.clear(deferred_cache_)
  let dc1 := patternCacheClearInto now s1.pattern_cache.entries s1.deferred_cache
  let s2 := { s1 with
    pattern_cache := ⟨[], 0⟩,
    deferred_cache := dc1 }
  -- result_cache_.clear(); deferred_cache_.clear()
  let s3 := { s2 with
    result_cache := ⟨[], 0⟩,
    deferred_cache := (⟨[], 0⟩ : DeferredCacheState) }
  -- if (config_.auto_start_eviction_thread) startEvictionThread()
  if cfg.auto_start_eviction_thread then { s3 with eviction_running := true }
  else s3

--------------------------------------------------------------------------
-- Interleaving model of the hit path against a concurrent eviction pass
-- (getOrCompileStd lines 172-189 vs evictStd lines 233-270)
--------------------------------------------------------------------------

namespace HitRace

/-- Program counter of the caller thread executing the lookup block of
`getOrCompileStd`:
`g0` before `std::shared_lock lock(std_mutex_)` (line 174);
`g1` lock held, before `find` (line 175);
`g2` entry found, before `refcount.fetch_add` (line 180);
`g3` refcount incremented, before the scope releases the lock (line 189);
`g4` returned from the hit path;
`gm` left the block on a miss (lock released, compile path). -/
inductive GPc where
  | g0 | g1 | g2 | g3 | g4 | gm
  deriving Repr, DecidableEq

/-- Program counter of the eviction thread around the free of the entry
the caller looks up (`evictStd`): `e0` before
`std::unique_lock lock(std_mutex_)` (line 233); `e1` lock held, before
re-reading the refcount and possibly erasing (lines 242-258); `e2` done
with the entry; `e3` lock released. -/
inductive EPc where
  | e0 | e1 | e2 | e3
  deriving Repr, DecidableEq

/-- Shared state of the race: the two program counters, who holds
`std_mutex_`, whether the entry is still in the map, and the pattern
refcount. -/
structure RaceState where
  gpc : GPc
  epc : EPc
  sharedHeld : Bool
  exclHeld : Bool
  present : Bool
  rc : Nat
  deriving Repr, DecidableEq

/-- Interleaved small-step semantics.  A `std::shared_lock` acquisition
blocks while the writer holds the mutex; the `std::unique_lock` of the
eviction pass blocks while any reader or writer holds it.  The eviction
thread frees the entry only after re-reading refcount 0 under its
exclusive lock. -/
inductive Step : RaceState → RaceState → Prop where
  | gAcquire (s : RaceState) (h1 : s.gpc = .g0) (h2 : s.exclHeld = false) :
      Step s { s with gpc := .g1, sharedHeld := true }
  | gLookupHit (s : RaceState) (h1 : s.gpc = .g1) (h2 : s.present = true) :
      Step s { s with gpc := .g2 }
  | gLookupMiss (s : RaceState) (h1 : s.gpc = .g1) (h2 : s.present = false) :
      Step s { s with gpc := .gm, sharedHeld := false }
  | gIncr (s : RaceState) (h1 : s.gpc = .g2) :
      Step s { s with gpc := .g3, rc := s.rc + 1 }
  | gRelease (s : RaceState) (h1 : s.gpc = .g3) :
      Step s { s with gpc := .g4, sharedHeld := false }
  | eAcquire (s : RaceState) (h1 : s.epc = .e0) (h2 : s.sharedHeld = false)
      (h3 : s.exclHeld = false) :
      Step s { s with epc := .e1, exclHeld := true }
  | eFree (s : RaceState) (h1 : s.epc = .e1) (h2 : s.present = true)
      (h3 : s.rc = 0) :
      Step s { s with epc := .e2, present := false }
  | eSkip (s : RaceState) (h1 : s.epc = .e1)
      (h2 : s.present = false ∨ s.rc ≠ 0) :
      Step s { s with epc := .e2 }
  | eRelease (s : RaceState) (h1 : s.epc = .e2) :
      Step s { s with epc := .e3, exclHeld := false }

/-- Initial state: both threads before their lock acquisitions, the
entry resident, an arbitrary refcount. -/
def init (r0 : Nat) : RaceState :=
  { gpc := .g0, epc := .e0, sharedHeld := false, exclHeld := false,
    present := true, rc := r0 }

/-- States reachable by interleaving the two threads. -/
def Reachable (r0 : Nat) (s : RaceState) : Prop :=
  Relation.ReflTransGen Step (init r0) s

/-- The inductive invariant: the caller holds the shared lock throughout
lines 175-189; the eviction thread holds the exclusive lock throughout
its loop body; the two exclude each other; and the looked-up entry is
still present when the increment at line 180 executes. -/
def Inv (s : RaceState) : Prop :=
  ((s.gpc = .g1 ∨ s.gpc = .g2 ∨ s.gpc = .g3) → s.sharedHeld = true) ∧
  (s.exclHeld = true → s.sharedHeld = false) ∧
  (s.epc = .e1 → s.exclHeld = true) ∧
  (s.gpc = .g2 → s.present = true)

theorem inv_init (r0 : Nat) : Inv (init r0) := by
  refine ⟨?_, ?_, ?_, ?_⟩ <;> simp [init, Inv]

theorem inv_step {s s2 : RaceState} (h : Inv s) (hs : Step s s2) : Inv s2 := by
  obtain ⟨h1, h2, h3, h4⟩ := h
  cases hs with
  | gAcquire hg he => exact ⟨fun _ => rfl, by simp_all, by simp_all, by simp_all⟩
  | gLookupHit hg hp => exact ⟨by simp_all, by simp_all, by simp_all, by simp_all⟩
  | gLookupMiss hg hp => exact ⟨by simp_all, by simp_all, by simp_all, by simp_all⟩
  | gIncr hg => exact ⟨by simp_all, by simp_all, by simp_all, by simp_all⟩
  | gRelease hg => exact ⟨by simp_all, by simp_all, by simp_all, by simp_all⟩
  | eAcquire hg hsh he =>
      refine ⟨?_, by simp_all, by simp_all, by simp_all⟩
      intro hpc
      have := h1 hpc
      simp_all
  | eFree hg hp hr =>
      refine ⟨by simp_all, by simp_all, by simp_all, ?_⟩
      intro hpc
      exfalso
      have hexcl := h3 hg
      have hshared := h2 hexcl
      have := h1 (Or.inr (Or.inl hpc))
      simp_all
  | eSkip hg hp => exact ⟨by simp_all, by simp_all, by simp_all, by simp_all⟩
  | eRelease hg => exact ⟨by simp_all, by simp_all, by simp_all, by simp_all⟩

theorem inv_reachable {r0 : Nat} {s : RaceState} (h : Reachable r0 s) : Inv s := by
  induction h with
  | refl => exact inv_init r0
  | tail _ hstep ih => exact inv_step ih hstep

end HitRace

--------------------------------------------------------------------------
-- Helper lemmas
--------------------------------------------------------------------------

theorem natCastModU64 (n : Nat) (h : n < U64MOD) :
    ((n : Int) % ((U64MOD : Nat) : Int)).toNat = n := by
  rw [Int.emod_eq_of_lt (by positivity) (by exact_mod_cast h)]
  simp

/-- The configuration holding every parse default (cache_config.cpp
lines 33-61). -/
def defaultConfig : CacheConfig :=
  { cache_enabled := true
    pattern_result_cache_enabled := true
    pattern_result_cache_target_capacity_bytes := 104857600
    pattern_result_cache_string_threshold_bytes := 10240
    pattern_result_cache_ttl_ms := 300000
    pattern_result_cache_use_tbb := false
    pattern_cache_target_capacity_bytes := 104857600
    pattern_cache_ttl_ms := 300000
    pattern_cache_use_tbb := false
    pattern_cache_lru_batch_size := 100
    deferred_cache_ttl_ms := 600000
    auto_start_eviction_thread := true
    eviction_check_interval_ms := 100 }

theorem validate_ok_ttl_order (c : CacheConfig) (hv : c.validate = .ok ())
    (hc : c.cache_enabled = true) :
    c.pattern_cache_ttl_ms < c.deferred_cache_ttl_ms := by
  unfold CacheConfig.validate at hv
  rw [hc] at hv
  simp only [Bool.true_eq_false, if_false] at hv
  split_ifs at hv
  omega

--------------------------------------------------------------------------
-- Claim theorems
--------------------------------------------------------------------------

theorem toInt32_eq_self (n : Int) (h : inInt32 n) : toInt32 n = n := by
  obtain ⟨h1, h2⟩ := h
  simp only [toInt32]
  split <;> omega

/-- C10 (amended).  Round-trip: serialising a well-formed, valid
configuration whose millisecond fields fit in a 32-bit `int` and parsing
the result yields the configuration back, field for field.  (The parse
reads the millisecond fields through `int`, truncating larger counts, so
the unrestricted round trip fails — see the counterexample.) -/
theorem config_roundtrip (c : CacheConfig) (hwf : c.wf)
    (hms : c.msFieldsFitInt) (hv : c.validate = .ok ()) :
    CacheConfig.fromJson c.toJson = .ok c := by
  obtain ⟨h1, h2, h3, h4⟩ := hwf
  obtain ⟨hm1, hm2, hm3, hm4⟩ := hms
  have hread : readConfig c.toJson = .ok c := by
    simp [readConfig, CacheConfig.toJson, jvalueBool, jvalueNat, jvalueInt,
      jlookup, bind, Except.bind, natCastModU64 _ h1, natCastModU64 _ h2,
      natCastModU64 _ h3, natCastModU64 _ h4, toInt32_eq_self _ hm1,
      toInt32_eq_self _ hm2, toInt32_eq_self _ hm3, toInt32_eq_self _ hm4]
    rfl
  simp [CacheConfig.fromJson, hread, hv]

theorem config_roundtrip_witness :
    defaultConfig.wf ∧ defaultConfig.msFieldsFitInt ∧
      defaultConfig.validate = .ok () ∧
      CacheConfig.fromJson defaultConfig.toJson = .ok defaultConfig :=
  ⟨by decide, by decide, rfl,
    config_roundtrip defaultConfig (by decide) (by decide) rfl⟩

/-- A configuration that is valid for the C++ record (its millisecond
fields hold 64-bit counts, all checks pass) but whose TTLs exceed the
`int` range. -/
def bigTtlConfig : CacheConfig :=
  { defaultConfig with
      pattern_cache_ttl_ms := (2 : Int) ^ 35
      deferred_cache_ttl_ms := (2 : Int) ^ 36 }

/-- C10 counterexample.  `bigTtlConfig` passes validation, yet parsing
its own serialisation fails: the int-typed reads truncate `2^35` and
`2^36` to 0 and validation then rejects the zero pattern-cache TTL, so
serialise-then-parse is not the identity for every valid
configuration. -/
theorem config_roundtrip_fails_beyond_int :
    bigTtlConfig.validate = .ok () ∧
    CacheConfig.fromJson bigTtlConfig.toJson =
      .error "pattern_cache_ttl_ms must be > 0" :=
  ⟨rfl, rfl⟩

/-- C5 (amended).  When parsing succeeds and the parsed configuration has
`cache_enabled` true, `deferred_cache_ttl_ms > pattern_cache_ttl_ms`
holds; with caching disabled, validation is skipped entirely
(cache_config.cpp lines 81-83), so the unconditional form of the claim
fails. -/
theorem parse_ok_deferred_gt_pattern (j : JsonObj) (c : CacheConfig)
    (h : CacheConfig.fromJson j = .ok c) (hc : c.cache_enabled = true) :
    c.pattern_cache_ttl_ms < c.deferred_cache_ttl_ms := by
  unfold CacheConfig.fromJson at h
  split at h
  · exact absurd h (by simp)
  · rename_i cfg _
    split at h
    · exact absurd h (by simp)
    · rename_i u hval
      have hcc : cfg = c := by simpa using h
      subst hcc
      exact validate_ok_ttl_order cfg hval hc

theorem parse_ok_deferred_gt_pattern_witness :
    CacheConfig.fromJson defaultConfig.toJson = .ok defaultConfig ∧
      defaultConfig.cache_enabled = true ∧
      defaultConfig.pattern_cache_ttl_ms < defaultConfig.deferred_cache_ttl_ms :=
  ⟨by rfl, rfl,
    parse_ok_deferred_gt_pattern defaultConfig.toJson defaultConfig (by rfl) rfl⟩

/-- Config document with caching disabled and the deferred TTL not above
the pattern TTL. -/
def disabledTtlJson : JsonObj :=
  [ ("cache_enabled", .jbool false),
    ("pattern_cache_ttl_ms", .jnum 200),
    ("deferred_cache_ttl_ms", .jnum 100) ]

/-- The configuration `disabledTtlJson` parses to. -/
def disabledTtlConfig : CacheConfig :=
  { defaultConfig with
      cache_enabled := false
      pattern_cache_ttl_ms := 200
      deferred_cache_ttl_ms := 100 }

/-- C5 counterexample.  A document with
`deferred_cache_ttl_ms ≤ pattern_cache_ttl_ms` on which parsing
nevertheless succeeds (caching disabled skips validation), refuting the
unconditional claim. -/
theorem parse_accepts_inverted_ttl_when_disabled :
    CacheConfig.fromJson disabledTtlJson = .ok disabledTtlConfig ∧
      disabledTtlConfig.deferred_cache_ttl_ms ≤ disabledTtlConfig.pattern_cache_ttl_ms :=
  ⟨by rfl, by decide⟩

/-- C4 (amended).  With caching enabled, validation fails whenever the
pattern-cache capacity, pattern-cache TTL, deferred TTL or eviction
interval is not strictly positive, and whenever the result cache is
enabled and any of its capacity, string threshold or TTL is not strictly
positive.  (The three result-cache checks are guarded by
`pattern_result_cache_enabled`, cache_config.cpp line 86, so they are not
unconditional as the original claim states.) -/
theorem validate_rejects_nonpositive (c : CacheConfig)
    (hc : c.cache_enabled = true)
    (hbad : c.pattern_cache_target_capacity_bytes = 0 ∨
      c.pattern_cache_ttl_ms ≤ 0 ∨
      c.deferred_cache_ttl_ms ≤ 0 ∨
      c.eviction_check_interval_ms ≤ 0 ∨
      (c.pattern_result_cache_enabled = true ∧
        (c.pattern_result_cache_target_capacity_bytes = 0 ∨
         c.pattern_result_cache_string_threshold_bytes = 0 ∨
         c.pattern_result_cache_ttl_ms ≤ 0))) :
    c.validate.isOk = false := by
  unfold CacheConfig.validate
  rw [hc]
  simp only [Bool.true_eq_false, if_false]
  split_ifs <;>
    first
      | rfl
      | (exfalso
         rcases hbad with h | h | h | h | ⟨he, h | h | h⟩ <;> simp_all)

theorem validate_rejects_nonpositive_witness :
    (defaultConfig.cache_enabled = true ∧
      ({ defaultConfig with pattern_cache_ttl_ms := 0 } : CacheConfig).pattern_cache_ttl_ms ≤ 0) ∧
    ({ defaultConfig with pattern_cache_ttl_ms := 0 } : CacheConfig).validate.isOk = false :=
  ⟨⟨rfl, by decide⟩,
    validate_rejects_nonpositive { defaultConfig with pattern_cache_ttl_ms := 0 } rfl
      (Or.inr (Or.inl (by decide)))⟩

/-- Config with caching on, the result cache disabled, and a zero
result-cache capacity. -/
def zeroResultCapConfig : CacheConfig :=
  { defaultConfig with
      pattern_result_cache_enabled := false
      pattern_result_cache_target_capacity_bytes := 0 }

/-- C4 counterexample.  With `cache_enabled` true but the result cache
disabled, a zero `pattern_result_cache_target_capacity_bytes` (a capacity
field that is not strictly positive) passes validation, refuting the
claim that the check holds regardless of the other fields. -/
theorem validate_accepts_zero_disabled_result_capacity :
    zeroResultCapConfig.cache_enabled = true ∧
      zeroResultCapConfig.pattern_result_cache_target_capacity_bytes = 0 ∧
      zeroResultCapConfig.validate = .ok () :=
  ⟨rfl, rfl, rfl⟩

/-- A manager with empty caches and the given eviction-thread state. -/
def emptyManager (running : Bool) : CacheManagerState :=
  { pattern_cache := ⟨[], 0⟩, result_cache := ⟨[], 0⟩,
    deferred_cache := ⟨[], 0⟩, eviction_running := running }

/-- `defaultConfig` with `auto_start_eviction_thread` off. -/
def noAutoStartConfig : CacheConfig :=
  { defaultConfig with auto_start_eviction_thread := false }

/-- C2.  `clearAllCaches` decides the restart from
`config_.auto_start_eviction_thread` (cache_manager.cpp line 95), not
from the observed running state: with the flag off it leaves a
previously-running loop stopped, and with the flag on it starts a loop
that was not running before the call — both contradicting the
restart-iff-was-running contract (and the function's own comment at
line 94). -/
theorem clearAll_restart_follows_config_flag :
    (clearAllCaches noAutoStartConfig (emptyManager true) 0).eviction_running = false ∧
    (clearAllCaches defaultConfig (emptyManager false) 0).eviction_running = true :=
  ⟨rfl, rfl⟩

/-- C1.  In every interleaving of the hit path of `getOrCompileStd` with
an eviction pass, when the caller is between the lookup that observed the
entry and the refcount increment (program point `g2`, source line 180),
it still holds the shared lock, the eviction thread does not hold the
exclusive lock, and the entry has not been freed: the increment happens
while the lock is held, never after release, and no eviction can free the
observed entry in between. -/
theorem hit_path_increment_under_lock (r0 : Nat) (s : HitRace.RaceState)
    (h : HitRace.Reachable r0 s) (hg : s.gpc = .g2) :
    s.sharedHeld = true ∧ s.exclHeld = false ∧ s.present = true := by
  obtain ⟨h1, h2, h3, h4⟩ := HitRace.inv_reachable h
  have hs := h1 (Or.inr (Or.inl hg))
  refine ⟨hs, ?_, h4 hg⟩
  cases he : s.exclHeld with
  | false => rfl
  | true => exact absurd hs (by simp [h2 he])

/-- The state after acquiring the shared lock and a successful lookup. -/
def c1WitnessState : HitRace.RaceState :=
  { gpc := .g2, epc := .e0, sharedHeld := true, exclHeld := false,
    present := true, rc := 0 }

theorem hit_path_increment_under_lock_witness :
    HitRace.Reachable 0 c1WitnessState ∧ c1WitnessState.gpc = .g2 ∧
      (c1WitnessState.sharedHeld = true ∧ c1WitnessState.exclHeld = false ∧
        c1WitnessState.present = true) :=
  have hpath : HitRace.Reachable 0 c1WitnessState :=
    Relation.ReflTransGen.tail
      (Relation.ReflTransGen.single (HitRace.Step.gAcquire (HitRace.init 0) rfl rfl))
      (HitRace.Step.gLookupHit _ rfl rfl)
  ⟨hpath, rfl, hit_path_increment_under_lock 0 c1WitnessState hpath rfl⟩

/-- Config for the LRU batch counterexample: tiny capacity, batch size 1,
large TTL so the TTL phase is inert. -/
def c3Config : CacheConfig :=
  { defaultConfig with
      pattern_cache_target_capacity_bytes := 0,
      pattern_cache_lru_batch_size := 1,
      pattern_cache_ttl_ms := 1000000 }

/-- Two refcount-0 entries of one byte each, fresh last-access. -/
def c3State : PatternCacheState :=
  { entries := [ (1, ⟨⟨"a", 0, 1⟩, 0⟩), (2, ⟨⟨"b", 0, 1⟩, 0⟩) ],
    total_size_bytes := 2 }

/-- C3 counterexample.  With `pattern_cache_lru_batch_size = 1`, a single
call to `evict` performs two LRU evictions: the while-loop at
pattern_cache.cpp line 273 re-runs the batch until the capacity target is
met, so one eviction pass is not bounded by the batch size. -/
theorem pattern_evict_lru_exceeds_batch :
    c3Config.pattern_cache_lru_batch_size = 1 ∧
      (patternEvictStd c3Config c3State ⟨[], 0⟩ {} 0).2.2.1.lru_evictions = 2 :=
  ⟨rfl, rfl⟩



-- kept-entries characterisation of the three TTL scans
theorem resultTtlPass_kept (ttl now : Int) (entries : List (Nat × ResultCacheEntry))
    (total : Nat) (m : ResultCacheMetrics) :
    (resultTtlPass ttl now entries total m).1 =
      entries.filter (fun kv => decide (now - kv.2.last_access ≤ ttl)) := by
  induction entries generalizing total m with
  | nil => simp [resultTtlPass]
  | cons kv rest ih =>
      obtain ⟨k, e⟩ := kv
      by_cases h : now - e.last_access > ttl
      · simp [resultTtlPass, h, ih, List.filter, Int.not_le.mpr h]
      · simp [resultTtlPass, h, ih, List.filter, Int.not_lt.mp h]

theorem patternTtlPass_kept (ttl now : Int) (entries : List (Nat × PatternCacheEntry))
    (total : Nat) (dc : DeferredCacheState) (m : PatternCacheMetrics) :
    (patternTtlPass ttl now entries total dc m).1 =
      entries.filter (fun kv => decide (now - kv.2.last_access ≤ ttl)) := by
  induction entries generalizing total dc m with
  | nil => simp [patternTtlPass]
  | cons kv rest ih =>
      obtain ⟨k, e⟩ := kv
      by_cases h : now - e.last_access > ttl
      · by_cases h0 : e.pattern.refcount = 0
        · simp [patternTtlPass, h, h0, ih, List.filter, Int.not_le.mpr h]
        · simp [patternTtlPass, h, h0, ih, List.filter, Int.not_le.mpr h]
      · simp [patternTtlPass, h, ih, List.filter, Int.not_lt.mp h]

theorem deferredEvictPass_kept (ttl now : Int) (entries : List (Nat × DeferredEntry))
    (total : Nat) (m : DeferredCacheMetrics) :
    (deferredEvictPass ttl now entries total m).1 =
      entries.filter (fun kv => decide (classifyDeferred ttl now kv.2 = .retain)) := by
  induction entries generalizing total m with
  | nil => simp [deferredEvictPass]
  | cons kv rest ih =>
      obtain ⟨k, e⟩ := kv
      by_cases h0 : e.pattern.refcount = 0
      · simp [deferredEvictPass, classifyDeferred, h0, ih, List.filter]
      · by_cases hage : now - e.entered_deferred > ttl
        · simp [deferredEvictPass, classifyDeferred, h0, hage, ih, List.filter]
        · simp [deferredEvictPass, classifyDeferred, h0, hage, ih, List.filter]

theorem deferredEvictPass_counts (ttl now : Int) (entries : List (Nat × DeferredEntry))
    (total : Nat) (m : DeferredCacheMetrics) :
    (deferredEvictPass ttl now entries total m).2.2.1.immediate_evictions =
        m.immediate_evictions +
          (entries.filter (fun kv => decide (classifyDeferred ttl now kv.2 = .immediate))).length ∧
    (deferredEvictPass ttl now entries total m).2.2.1.forced_evictions =
        m.forced_evictions +
          (entries.filter (fun kv => decide (classifyDeferred ttl now kv.2 = .forced))).length := by
  induction entries generalizing total m with
  | nil => simp [deferredEvictPass]
  | cons kv rest ih =>
      obtain ⟨k, e⟩ := kv
      by_cases h0 : e.pattern.refcount = 0
      · have := ih (total - e.approx_size_bytes)
        simp [deferredEvictPass, classifyDeferred, h0, List.filter, this]
        omega
      · by_cases hage : now - e.entered_deferred > ttl
        · have := ih (total - e.approx_size_bytes)
          simp [deferredEvictPass, classifyDeferred, h0, hage, List.filter, this]
          omega
        · simp [deferredEvictPass, classifyDeferred, h0, hage, List.filter, ih]

theorem deferredEvictPass_warnings (ttl now : Int) (entries : List (Nat × DeferredEntry))
    (total : Nat) (m : DeferredCacheMetrics) :
    (deferredEvictPass ttl now entries total m).2.2.2.1 =
      (entries.filter (fun kv => decide (classifyDeferred ttl now kv.2 = .forced))).map
        (fun kv => ⟨kv.2.pattern.refcount, now - kv.2.entered_deferred⟩) := by
  induction entries generalizing total m with
  | nil => simp [deferredEvictPass]
  | cons kv rest ih =>
      obtain ⟨k, e⟩ := kv
      by_cases h0 : e.pattern.refcount = 0
      · simp [deferredEvictPass, classifyDeferred, h0, List.filter, ih]
      · by_cases hage : now - e.entered_deferred > ttl
        · simp [deferredEvictPass, classifyDeferred, h0, hage, List.filter, ih]
        · simp [deferredEvictPass, classifyDeferred, h0, hage, List.filter, ih]



/-- C6.  In every deferred-cache eviction pass, each entry is classified
exactly by `classifyDeferred`: refcount 0 means immediate eviction
counted under `immediate_evictions`; otherwise an age strictly above
`deferred_cache_ttl_ms` means forced eviction counted under
`forced_evictions` with a warning carrying the observed refcount and age;
otherwise the entry is retained. -/
theorem deferred_evict_classification (cfg : CacheConfig) (dc : DeferredCacheState)
    (m : DeferredCacheMetrics) (now : Int) :
    (deferredEvict cfg dc m now).1.entries =
      dc.entries.filter
        (fun kv => decide (classifyDeferred cfg.deferred_cache_ttl_ms now kv.2 = .retain)) ∧
    (deferredEvict cfg dc m now).2.1.immediate_evictions =
      m.immediate_evictions + (dc.entries.filter
        (fun kv => decide (classifyDeferred cfg.deferred_cache_ttl_ms now kv.2 = .immediate))).length ∧
    (deferredEvict cfg dc m now).2.1.forced_evictions =
      m.forced_evictions + (dc.entries.filter
        (fun kv => decide (classifyDeferred cfg.deferred_cache_ttl_ms now kv.2 = .forced))).length ∧
    (deferredEvict cfg dc m now).2.2.1 =
      (dc.entries.filter
        (fun kv => decide (classifyDeferred cfg.deferred_cache_ttl_ms now kv.2 = .forced))).map
        (fun kv => ⟨kv.2.pattern.refcount, now - kv.2.entered_deferred⟩) := by
  have hk := deferredEvictPass_kept cfg.deferred_cache_ttl_ms now dc.entries dc.total_size_bytes m
  have hc := deferredEvictPass_counts cfg.deferred_cache_ttl_ms now dc.entries dc.total_size_bytes m
  have hw := deferredEvictPass_warnings cfg.deferred_cache_ttl_ms now dc.entries dc.total_size_bytes m
  refine ⟨?_, ?_, ?_, ?_⟩ <;> simp [deferredEvict] <;> simp_all

/-- C8.  In the TTL phases of the result cache, the pattern cache, and
the deferred cache's forced-eviction age check, an entry evaluated at an
age exactly equal to the TTL is not evicted: eviction requires the age to
be strictly greater. -/
theorem ttl_boundary_not_evicted :
    (∀ (ttl now : Int) (entries : List (Nat × ResultCacheEntry)) (total : Nat)
        (m : ResultCacheMetrics) (k : Nat) (e : ResultCacheEntry),
        (k, e) ∈ entries → now - e.last_access = ttl →
        (k, e) ∈ (resultTtlPass ttl now entries total m).1) ∧
    (∀ (ttl now : Int) (entries : List (Nat × PatternCacheEntry)) (total : Nat)
        (dc : DeferredCacheState) (m : PatternCacheMetrics) (k : Nat) (e : PatternCacheEntry),
        (k, e) ∈ entries → now - e.last_access = ttl →
        (k, e) ∈ (patternTtlPass ttl now entries total dc m).1) ∧
    (∀ (ttl now : Int) (entries : List (Nat × DeferredEntry)) (total : Nat)
        (m : DeferredCacheMetrics) (k : Nat) (e : DeferredEntry),
        (k, e) ∈ entries → e.pattern.refcount ≠ 0 → now - e.entered_deferred = ttl →
        (k, e) ∈ (deferredEvictPass ttl now entries total m).1) := by
  refine ⟨?_, ?_, ?_⟩
  · intro ttl now entries total m k e hmem hage
    rw [resultTtlPass_kept]
    rw [List.mem_filter]
    exact ⟨hmem, by simp [hage]⟩
  · intro ttl now entries total dc m k e hmem hage
    rw [patternTtlPass_kept]
    rw [List.mem_filter]
    exact ⟨hmem, by simp [hage]⟩
  · intro ttl now entries total m k e hmem hrc hage
    rw [deferredEvictPass_kept]
    rw [List.mem_filter]
    refine ⟨hmem, ?_⟩
    simp [classifyDeferred, hrc, hage]

theorem ttl_boundary_not_evicted_witness :
    ((1000 : Nat), (⟨true, 0, 64⟩ : ResultCacheEntry)) ∈
      (resultTtlPass 300 300 [(1000, ⟨true, 0, 64⟩)] 64 {}).1 ∧
    ((1000 : Nat), (⟨⟨"a", 0, 1⟩, 0⟩ : PatternCacheEntry)) ∈
      (patternTtlPass 300 300 [(1000, ⟨⟨"a", 0, 1⟩, 0⟩)] 1 ⟨[], 0⟩ {}).1 ∧
    ((1000 : Nat), (⟨⟨"a", 1, 1⟩, 0, 1⟩ : DeferredEntry)) ∈
      (deferredEvictPass 300 300 [(1000, ⟨⟨"a", 1, 1⟩, 0, 1⟩)] 1 {}).1 :=
  ⟨ttl_boundary_not_evicted.1 300 300 _ 64 {} 1000 _ (by decide) rfl,
   ttl_boundary_not_evicted.2.1 300 300 _ 1 ⟨[], 0⟩ {} 1000 _ (by decide) rfl,
   ttl_boundary_not_evicted.2.2 300 300 _ 1 {} 1000 _ (by decide) (by decide) rfl⟩

-- C3 amended support
theorem patternLruEvictKeys_ev_le (cap : Nat) (keys : List Nat)
    (st : PatternCacheState) (m : PatternCacheMetrics) (ev : Nat) :
    (patternLruEvictKeys cap keys st m ev).2.2.1 ≤ ev + keys.length := by
  induction keys generalizing st m ev with
  | nil => simp [patternLruEvictKeys]
  | cons k rest ih =>
      rw [patternLruEvictKeys]
      cases afind k st.entries with
      | none =>
          refine le_trans (ih st m ev) ?_
          simp only [List.length_cons]
          omega
      | some e =>
          simp only [List.length_cons]
          split
          · simp
          · refine le_trans (ih _ _ (ev + 1)) ?_
            omega



/-- C3 (amended).  Each LRU batch iteration of a pattern-cache eviction
pass selects at most `pattern_cache_lru_batch_size` entries, all of them
refcount-0 entries of the cache, chosen oldest-first by last-access
(every selected entry is no younger than every unselected candidate), and
evicts at most that selection; the while-loop may however repeat batch
iterations within one `evict` call until the capacity target is met, so
a full pass is not bounded by the batch size (see the counterexample). -/
theorem pattern_lru_batch_bounded (cfg : CacheConfig) (st : PatternCacheState)
    (m : PatternCacheMetrics) (ev : Nat)
    (out : PatternCacheState × PatternCacheMetrics × Nat × Bool)
    (h : patternLruStep cfg st m ev = some out) :
    (patternLruSelect cfg.pattern_cache_lru_batch_size st).length ≤
      cfg.pattern_cache_lru_batch_size ∧
    (∀ kv ∈ (patternLruSorted st).take
        (min cfg.pattern_cache_lru_batch_size (patternLruCandidates st).length),
      kv ∈ st.entries ∧ kv.2.pattern.refcount = 0) ∧
    (∀ kv ∈ (patternLruSorted st).take
        (min cfg.pattern_cache_lru_batch_size (patternLruCandidates st).length),
      ∀ kv2 ∈ (patternLruSorted st).drop
        (min cfg.pattern_cache_lru_batch_size (patternLruCandidates st).length),
        kv.2.last_access ≤ kv2.2.last_access) ∧
    out.2.2.1 ≤ ev + (patternLruSelect cfg.pattern_cache_lru_batch_size st).length := by
  have hlen : (patternLruSorted st).length = (patternLruCandidates st).length :=
    (List.perm_insertionSort lruOlder (patternLruCandidates st)).length_eq
  refine ⟨?_, ?_, ?_, ?_⟩
  · simp only [patternLruSelect, List.length_map, List.length_take, hlen]
    omega
  · intro kv hkv
    have hs : kv ∈ patternLruSorted st := List.mem_of_mem_take hkv
    have hc : kv ∈ patternLruCandidates st :=
      (List.perm_insertionSort lruOlder (patternLruCandidates st)).mem_iff.mp hs
    rw [patternLruCandidates, List.mem_filter] at hc
    exact ⟨hc.1, by simpa using hc.2⟩
  · intro kv hkv kv2 hkv2
    have hsorted : List.Sorted lruOlder (patternLruSorted st) :=
      List.sorted_insertionSort lruOlder (patternLruCandidates st)
    exact hsorted.rel_of_mem_take_of_mem_drop hkv hkv2
  · rw [patternLruStep] at h
    split at h
    · rename_i hcond
      split at h
      · exact absurd h (by simp)
      · have hout := Option.some.inj h
        rw [← hout]
        exact patternLruEvictKeys_ev_le _ _ _ _ _
    · exact absurd h (by simp)



/-- The outcome of the single batch iteration on `c3State`. -/
def c3BatchOut : PatternCacheState × PatternCacheMetrics × Nat × Bool :=
  (⟨[(2, ⟨⟨"b", 0, 1⟩, 0⟩)], 1⟩,
   { lru_evictions := 1, lru_evictions_bytes_freed := 1,
     total_evictions := 1, total_bytes_freed := 1 }, 1, false)

theorem pattern_lru_batch_bounded_witness :
    (patternLruSelect c3Config.pattern_cache_lru_batch_size c3State).length ≤
      c3Config.pattern_cache_lru_batch_size ∧
    c3BatchOut.2.2.1 ≤ 0 + (patternLruSelect c3Config.pattern_cache_lru_batch_size c3State).length :=
  ⟨(pattern_lru_batch_bounded c3Config c3State {} 0 c3BatchOut rfl).1,
   (pattern_lru_batch_bounded c3Config c3State {} 0 c3BatchOut rfl).2.2.2⟩

/-- C7.  When the pattern is not cached and compilation fails,
`getOrCompileStd` returns no pattern plus the engine's diagnostic
message, increments both `misses` and `compilation_errors`, and leaves
the cache state — entries and byte counter — exactly as it was. -/
theorem getOrCompile_failure_leaves_cache_unchanged (key : Nat) (msg : String)
    (st : PatternCacheState) (m : PatternCacheMetrics) (now : Int)
    (hmiss : afind key st.entries = none) :
    getOrCompileStd key (.error msg) st m now =
      (none, msg, st,
       { m with misses := m.misses + 1,
                compilation_errors := m.compilation_errors + 1 }) := by
  simp [getOrCompileStd, hmiss]

theorem getOrCompile_failure_witness :
    afind 5 (⟨[], 0⟩ : PatternCacheState).entries = none ∧
      getOrCompileStd 5 (.error "missing ): unbalanced parenthesis")
          (⟨[], 0⟩ : PatternCacheState) {} 0 =
        (none, "missing ): unbalanced parenthesis", (⟨[], 0⟩ : PatternCacheState),
         { misses := 1, compilation_errors := 1 }) :=
  ⟨rfl, getOrCompile_failure_leaves_cache_unchanged 5 _ _ {} 0 rfl⟩

theorem afind_aupdate_self {α : Type} (k : Nat) (f : α → α) (l : List (Nat × α)) :
    afind k (aupdate k f l) = (afind k l).map f := by
  induction l with
  | nil => simp [afind, aupdate]
  | cons kv rest ih =>
      obtain ⟨k2, v⟩ := kv
      by_cases h : k2 = k
      · simp [afind, aupdate, h]
      · simp [afind, aupdate, h, ih]

theorem afind_append_self {α : Type} (k : Nat) (v : α) (l : List (Nat × α))
    (h : afind k l = none) : afind k (l ++ [(k, v)]) = some v := by
  induction l with
  | nil => simp [afind]
  | cons kv rest ih =>
      obtain ⟨k2, v2⟩ := kv
      by_cases h2 : k2 = k
      · simp [afind, h2] at h
      · simp [afind, h2] at h ⊢
        exact ih h

theorem aupdate_length {α : Type} (k : Nat) (f : α → α) (l : List (Nat × α)) :
    (aupdate k f l).length = l.length := by
  induction l with
  | nil => rfl
  | cons kv rest ih =>
      obtain ⟨k2, v⟩ := kv
      by_cases h : k2 = k
      · simp [aupdate, h]
      · simp [aupdate, h, ih]

/-- C9.  With the result cache enabled and the input's byte size within
the string threshold, a `put` makes the following `get` for the same
(pattern fingerprint, input) return the stored result; a second `put`
with the opposite value overwrites in place, so `get` then returns the
new value and the entry count does not grow (it is exactly 1 when the
cache started empty). -/
theorem result_put_get_overwrite (cfg : CacheConfig) (hashString : String → Nat)
    (fp : Nat) (s : String) (r1 r2 : Bool) (st : ResultCacheState)
    (m : ResultCacheMetrics) (t1 t2 t3 t4 : Int)
    (st1 : ResultCacheState) (m1 : ResultCacheMetrics)
    (st2 : ResultCacheState) (m2 : ResultCacheMetrics)
    (hen : cfg.pattern_result_cache_enabled = true)
    (hlen : s.utf8ByteSize ≤ cfg.pattern_result_cache_string_threshold_bytes)
    (h1 : resultPut cfg hashString fp s r1 st m t1 = (st1, m1))
    (h2 : resultPut cfg hashString fp s r2 st1 m1 t3 = (st2, m2)) :
    (resultGet cfg hashString fp s st1 m1 t2).1 = some r1 ∧
    (resultGet cfg hashString fp s st2 m2 t4).1 = some r2 ∧
    st2.entries.length = st1.entries.length ∧
    (st.entries = [] → st1.entries.length = 1) := by
  have hnl : ¬ (s.utf8ByteSize > cfg.pattern_result_cache_string_threshold_bytes) :=
    Nat.not_lt.mpr hlen
  rw [resultPut, hen] at h1 h2
  simp only [Bool.not_true, Bool.false_eq_true, if_false, hnl] at h1 h2
  set key := resultMakeKey hashString fp s with hkey
  have hfind1 : afind key st1.entries = some
        ((match afind key st.entries with
          | some e => { e with match_result := r1, last_access := t1 }
          | none => ⟨r1, t1, RESULT_CACHE_ENTRY_SIZE⟩) : ResultCacheEntry) ∧
      st1.entries.length =
        (match afind key st.entries with
          | some _ => st.entries.length
          | none => st.entries.length + 1) := by
    rw [resultPutStd] at h1
    cases hf : afind key st.entries with
    | some e =>
        simp only [hf] at h1
        obtain ⟨hst1, -⟩ := Prod.mk.inj h1
        constructor
        · rw [← hst1, afind_aupdate_self, hf]
          rfl
        · rw [← hst1]
          exact aupdate_length _ _ _
    | none =>
        simp only [hf] at h1
        obtain ⟨hst1, -⟩ := Prod.mk.inj h1
        constructor
        · rw [← hst1]
          exact afind_append_self key _ st.entries hf
        · rw [← hst1]
          simp
  obtain ⟨he1, hlen1⟩ := hfind1
  rw [resultPutStd] at h2
  simp only [he1] at h2
  obtain ⟨hst2, -⟩ := Prod.mk.inj h2
  refine ⟨?_, ?_, ?_, ?_⟩
  · rw [resultGet, hen]
    simp only [Bool.not_true, Bool.false_eq_true, if_false]
    rw [resultGetStd, ← hkey, he1]
    cases hf : afind key st.entries <;> simp [hf]
  · rw [resultGet, hen]
    simp only [Bool.not_true, Bool.false_eq_true, if_false]
    rw [resultGetStd, ← hkey, ← hst2]
    rw [afind_aupdate_self, he1]
    rfl
  · rw [← hst2]
    simp [aupdate_length]
  · intro hempty
    rw [hlen1, hempty]
    simp [hempty, afind]

/-- First put of the witness scenario: `true` for (0, "x") into an empty
result cache. -/
def c9Put1 : ResultCacheState × ResultCacheMetrics :=
  resultPut defaultConfig (fun _ => 0) 0 "x" true ⟨[], 0⟩ {} 0

/-- Second put of the witness scenario: the opposite value. -/
def c9Put2 : ResultCacheState × ResultCacheMetrics :=
  resultPut defaultConfig (fun _ => 0) 0 "x" false c9Put1.1 c9Put1.2 0

theorem result_put_get_overwrite_witness :
    defaultConfig.pattern_result_cache_enabled = true ∧
    "x".utf8ByteSize ≤ defaultConfig.pattern_result_cache_string_threshold_bytes ∧
    (resultGet defaultConfig (fun _ => 0) 0 "x" c9Put1.1 c9Put1.2 0).1 = some true ∧
    (resultGet defaultConfig (fun _ => 0) 0 "x" c9Put2.1 c9Put2.2 0).1 = some false ∧
    c9Put2.1.entries.length = c9Put1.1.entries.length ∧
    c9Put1.1.entries.length = 1 := by
  have H := result_put_get_overwrite defaultConfig (fun _ => 0) 0 "x" true false
    ⟨[], 0⟩ {} 0 0 0 0 c9Put1.1 c9Put1.2 c9Put2.1 c9Put2.2 rfl (by decide) rfl rfl
  exact ⟨rfl, by decide, H.1, H.2.1, H.2.2.1, H.2.2.2 rfl⟩

end LibRE2
